import Mathlib

/-!
Verification of the Blackijecky casino protocol: a shallow embedding of the
dealer server (`dealer_server.py`) and the player client (`player_client.py`).
Wire buffers are modelled as lists of byte values (`List Nat`), the random
card stream and the received decision buffers are explicit inputs, and the
unbounded dealer loop carries explicit fuel.
-/

namespace Blackijecky

/-- Protocol constant `MAGIC_COOKIE` shared by server and client. -/
def MAGIC_COOKIE : Nat := 0xabcddcba

/-- Protocol constant `OFFER_TYPE` of `dealer_server.py`. -/
def OFFER_TYPE : Nat := 0x2

/-- Protocol constant `REQUEST_TYPE` of `dealer_server.py`. -/
def REQUEST_TYPE : Nat := 0x3

/-- Protocol constant `PAYLOAD_TYPE` of `dealer_server.py`. -/
def PAYLOAD_TYPE : Nat := 0x4

/-- Big-endian byte list of a 32-bit unsigned value, as produced by the
`struct.pack` format `>I`. -/
def u32be (n : Nat) : List Nat :=
  [n / 16777216 % 256, n / 65536 % 256, n / 256 % 256, n % 256]

/-- Big-endian byte list of a 16-bit unsigned value (`struct.pack` format `>H`). -/
def u16be (n : Nat) : List Nat :=
  [n / 256 % 256, n % 256]

/-- Value of four big-endian bytes (`struct.unpack` format `>I`). -/
def be32 (a b c d : Nat) : Nat :=
  ((a * 256 + b) * 256 + c) * 256 + d

/-- Value of two big-endian bytes (`struct.unpack` format `>H`). -/
def be16 (a b : Nat) : Nat :=
  a * 256 + b

/-- Padding semantics of the fixed-width `Ns` string format of `struct.pack`:
truncate to `n` bytes, pad with null bytes. -/
def padTo (n : Nat) (s : List Nat) : List Nat :=
  s.take n ++ List.replicate (n - s.length) 0

/-- Space padding of Python's `str.ljust(n)`, applied by the client to the
decision string before packing. -/
def ljustTo (n : Nat) (s : List Nat) : List Nat :=
  s ++ List.replicate (n - s.length) 32

/-- Byte at index `i` of a buffer (defaulting to 0; only used under length
guards that make the index in range). -/
def byteAt (data : List Nat) (i : Nat) : Nat := data.getD i 0

/-- Offer packet built in `broadcast_offers`:
`struct.pack('>IBH32s', MAGIC_COOKIE, OFFER_TYPE, tcp_port, name)`.
Arguments are assumed in range (`struct.pack` raises on out-of-range values;
the theorems carry the corresponding range hypotheses). -/
def offerPacket (tcp_port : Nat) (name : List Nat) : List Nat :=
  u32be MAGIC_COOKIE ++ [OFFER_TYPE] ++ u16be tcp_port ++ padTo 32 name

/-- Request packet built in `start_client`:
`struct.pack('>IBB32s', MAGIC_COOKIE, 0x3, num_rounds, TEAM_NAME.encode())`. -/
def requestPacket (num_rounds : Nat) (team : List Nat) : List Nat :=
  u32be MAGIC_COOKIE ++ [0x3, num_rounds] ++ padTo 32 team

/-- Decision packet built in the client's `play_round`:
`struct.pack('>IB5s', MAGIC_COOKIE, 0x4, decision.encode().ljust(5))`. -/
def decisionPacket (decision : List Nat) : List Nat :=
  u32be MAGIC_COOKIE ++ [0x4] ++ padTo 5 (ljustTo 5 decision)

/-- Round-Payload packet built in `send_payload`: the rank is split into a
high and a low byte and the fields are packed with format `>IBB3B`. -/
def send_payload (result rank suit : Nat) : List Nat :=
  u32be MAGIC_COOKIE ++ [PAYLOAD_TYPE, result, (rank >>> 8) &&& 0xFF, rank &&& 0xFF, suit]

/-- Parsing of the Request packet in `handle_client`: empty or short data is
dropped (`if not data or len(data) < 38: return`), then
`struct.unpack('>IBB32s', data[:38])` and the cookie/type check; on success
the round count and the raw 32-byte team-name field are returned. -/
def handle_client_parse (data : List Nat) : Option (Nat × List Nat) :=
  if data.length < 38 then none
  else
    let cookie := be32 (byteAt data 0) (byteAt data 1) (byteAt data 2) (byteAt data 3)
    let msg_type := byteAt data 4
    let rounds := byteAt data 5
    let team_name := (data.drop 6).take 32
    if cookie ≠ MAGIC_COOKIE ∨ msg_type ≠ REQUEST_TYPE then none
    else some (rounds, team_name)

/-- Parsing of the Offer packet in `start_client`: data shorter than 39 bytes
is skipped, then `struct.unpack('>IBH32s', data[:39])` and the cookie/type
check; on success the advertised TCP port and the raw 32-byte server-name
field are returned. -/
def clientParseOffer (data : List Nat) : Option (Nat × List Nat) :=
  if data.length < 39 then none
  else
    let cookie := be32 (byteAt data 0) (byteAt data 1) (byteAt data 2) (byteAt data 3)
    let msg_type := byteAt data 4
    let tcp_port := be16 (byteAt data 5) (byteAt data 6)
    let server_name := (data.drop 7).take 32
    if cookie ≠ MAGIC_COOKIE ∨ msg_type ≠ 0x2 then none
    else some (tcp_port, server_name)

/-- Client-side receive of a 9-byte Round-Payload (`safe_recv`): a buffer
shorter than 9 raises `ConnectionError`, any other length than 9 makes
`struct.unpack('>IBB3B', data)` raise, and a wrong cookie raises
`ValueError`; all are caught by the enclosing handler which returns the
sentinel `(0, 0, 0)`. On success returns
`(result, (rank_hi <<< 8) ||| rank_lo, suit)`. -/
def safe_recv (data : List Nat) : Nat × Nat × Nat :=
  if data.length < 9 then (0, 0, 0)
  else if data.length ≠ 9 then (0, 0, 0)
  else
    let cookie := be32 (byteAt data 0) (byteAt data 1) (byteAt data 2) (byteAt data 3)
    let res := byteAt data 5
    let r_h := byteAt data 6
    let r_l := byteAt data 7
    let suit := byteAt data 8
    if cookie ≠ MAGIC_COOKIE then (0, 0, 0)
    else (res, (r_h <<< 8) ||| r_l, suit)

/-- Server-side unpacking of a Decision buffer inside `play_round`:
`struct.unpack('>IB5s', data)` succeeds only on exactly 10 bytes and binds
the cookie and type fields to `_` — they are never inspected. Returns the
5-byte action field; `none` models the `struct.error` raised on any other
length. -/
def unpackDecision (data : List Nat) : Option (List Nat) :=
  if data.length = 10 then some ((data.drop 5).take 5) else none

/-- Card dealing of `deal_card`, with the two `random.randint` draws made
explicit arguments: returns `(rank, suit, value)` with the blackjack value
mapping of the source (`rank == 1 → 11`, `rank >= 11 → 10`, else `rank`). -/
def deal_card (rank suit : Nat) : Nat × Nat × Nat :=
  (rank, suit, if rank = 1 then 11 else if rank ≥ 11 then 10 else rank)

/-- Client-side hand total of `calculate_points`: Ace (rank 1) adds 11, face
cards (rank ≥ 11) add 10, other ranks add their rank. -/
def calculate_points (hand : List (Nat × Nat)) : Nat :=
  hand.foldl
    (fun total c => if c.1 = 1 then total + 11 else if c.1 ≥ 11 then total + 10 else total + c.1) 0

/-- Global casino counters of `BlackijeckyServer.__init__`. -/
structure Stats where
  total_wins : Nat
  total_losses : Nat
  total_ties : Nat
deriving DecidableEq

/-- Statistics update of `update_global_stats` (the body of its critical
section): result 0x3 counts a server loss, 0x2 a server win, anything else a
tie. -/
def update_global_stats (s : Stats) (result : Nat) : Stats :=
  if result = 0x3 then { s with total_losses := s.total_losses + 1 }
  else if result = 0x2 then { s with total_wins := s.total_wins + 1 }
  else { s with total_ties := s.total_ties + 1 }

/-- Denominator `total_games` computed inside `update_global_stats` right
before the win-rate division. -/
def total_games (s : Stats) : Nat :=
  s.total_wins + s.total_losses + s.total_ties

/-- Payload message as sent by `send_payload`, at field level: outcome code,
rank and suit. -/
structure Payload where
  outcome : Nat
  rank : Nat
  suit : Nat
deriving DecidableEq

/-- Result of the player phase of `play_round`: `ok = false` models a
`struct.error` escaping the round, `player_sum` is the final player total,
`idx` the next card-stream index, `sent` the hit-card payloads sent, and
`reads` the number of Decision `recv` calls performed. -/
structure PhaseOut where
  ok : Bool
  player_sum : Nat
  idx : Nat
  sent : List Payload
  reads : Nat
deriving DecidableEq

/-- Byte values of the literal `"Hittt"`. -/
def hitttBytes : List Nat := [72, 105, 116, 116, 116]

/-- Byte values of the literal `"Stand"`. -/
def standBytes : List Nat := [83, 116, 97, 110, 100]

/-- Python's `str.strip(c)` at byte level: removes leading and trailing
occurrences of the byte `c`. -/
def stripByte (c : Nat) (s : List Nat) : List Nat :=
  ((s.dropWhile (· = c)).reverse.dropWhile (· = c)).reverse

/-- ASCII whitespace bytes removed by Python's argumentless `str.strip()`. -/
def isSpaceByte (c : Nat) : Bool :=
  c == 9 || c == 10 || c == 11 || c == 12 || c == 13 || c == 32

/-- Python's argumentless `str.strip()` at byte level. -/
def stripSpace (s : List Nat) : List Nat :=
  ((s.dropWhile isSpaceByte).reverse.dropWhile isSpaceByte).reverse

/-- Normalisation applied to the decision string in the server's
`play_round`: `decision_bytes.decode().strip('\x00').strip()`, with `decode`
modelled as byte-transparent. -/
def normalizeDecision (s : List Nat) : List Nat :=
  stripSpace (stripByte 0 s)

/-- Player phase of `play_round` (the `while player_sum <= 21` loop).
`decisions` is the sequence of buffers returned by `conn.recv(1024)`; an
empty buffer models a closed peer (`if not data: break`), and past the end
of the list `recv` likewise yields no data. A buffer of any length other
than 10 makes `struct.unpack` raise (`ok = false`); on the action `"Hittt"`
a card is drawn, added to the player total and sent; any other action exits
the loop. -/
def playerPhase (cards : Nat → Nat × Nat) (decisions : List (List Nat))
    (player_sum idx : Nat) : PhaseOut :=
  if 21 < player_sum then ⟨true, player_sum, idx, [], 0⟩
  else
    match decisions with
    | [] => ⟨true, player_sum, idx, [], 1⟩
    | data :: rest =>
      if data = [] then ⟨true, player_sum, idx, [], 1⟩
      else
        match unpackDecision data with
        | none => ⟨false, player_sum, idx, [], 1⟩
        | some decision_bytes =>
          if normalizeDecision decision_bytes = hitttBytes then
            let c := deal_card (cards idx).1 (cards idx).2
            let out := playerPhase cards rest (player_sum + c.2.2) (idx + 1)
            ⟨out.ok, out.player_sum, out.idx, ⟨0, c.1, c.2.1⟩ :: out.sent, out.reads + 1⟩
          else ⟨true, player_sum, idx, [], 1⟩

/-- Dealer phase of `play_round` (the `while dealer_sum < 17` loop), with
explicit fuel standing in for the unbounded loop; the fuel is immaterial
whenever it is at least the number of draws needed. Returns the final dealer
total, the next card index and the payloads sent. -/
def dealerPhase (cards : Nat → Nat × Nat) : Nat → Nat → Nat → Nat × Nat × List Payload
  | 0, dealer_sum, idx => (dealer_sum, idx, [])
  | fuel + 1, dealer_sum, idx =>
    if dealer_sum < 17 then
      let c := deal_card (cards idx).1 (cards idx).2
      let out := dealerPhase cards fuel (dealer_sum + c.2.2) (idx + 1)
      (out.1, out.2.1, ⟨0, c.1, c.2.1⟩ :: out.2.2)
    else (dealer_sum, idx, [])

/-- Outcome ladder at the end of `play_round`: `result = 0x1`, then the
`if`/`elif` chain on the two totals. -/
def decideOutcome (player_sum dealer_sum : Nat) : Nat :=
  if player_sum > 21 then 0x2
  else if dealer_sum > 21 then 0x3
  else if player_sum > dealer_sum then 0x3
  else if dealer_sum > player_sum then 0x2
  else 0x1

/-- Observable trace of one `play_round` call: the payload messages sent in
order, the returned result (`none` when the round escapes with an
exception), the number of Decision `recv` calls, the final totals of both
hands as held in the locals `player_sum` and `dealer_sum`, and the payloads
sent by the dealer drawing loop. -/
structure RoundTrace where
  sent : List Payload
  result : Option Nat
  reads : Nat
  player_sum : Nat
  dealer_sum : Nat
  dealerSent : List Payload
deriving DecidableEq

/-- Round engine `play_round`, with the random card stream and the received
decision buffers as explicit inputs. Cards are dealt in source order: two
player cards, two dealer cards, then the player's hits, then the dealer's
draws. The initial three payloads carry the player's cards and the dealer's
first card; the dealer's second card is revealed after the player phase
regardless of a bust; the dealer loop runs only when the player total is at
most 21; the final payload carries the outcome with rank and suit 0. -/
def play_round (cards : Nat → Nat × Nat) (decisions : List (List Nat))
    (fuel : Nat) : RoundTrace :=
  let p1 := deal_card (cards 0).1 (cards 0).2
  let p2 := deal_card (cards 1).1 (cards 1).2
  let d1 := deal_card (cards 2).1 (cards 2).2
  let d2 := deal_card (cards 3).1 (cards 3).2
  let player_sum := p1.2.2 + p2.2.2
  let dealer_sum := d1.2.2 + d2.2.2
  let initial : List Payload := [⟨0, p1.1, p1.2.1⟩, ⟨0, p2.1, p2.2.1⟩, ⟨0, d1.1, d1.2.1⟩]
  let p := playerPhase cards decisions player_sum 4
  if p.ok = false then
    { sent := initial ++ p.sent, result := none, reads := p.reads,
      player_sum := p.player_sum, dealer_sum := dealer_sum, dealerSent := [] }
  else
    let d :=
      if p.player_sum ≤ 21 then dealerPhase cards fuel dealer_sum p.idx
      else (dealer_sum, p.idx, [])
    let result := decideOutcome p.player_sum d.1
    { sent := initial ++ p.sent ++ [⟨0, d2.1, d2.2.1⟩] ++ d.2.2 ++ [⟨result, 0, 0⟩],
      result := some result, reads := p.reads,
      player_sum := p.player_sum, dealer_sum := d.1, dealerSent := d.2.2 }

/-- Modelled from the spec: the Resolved-state outcome rule in the
specification's own words — first match in the order player bust (2), dealer
bust (3), player total higher (3), dealer total higher (2), tie (1). Used
only as the comparison point for the refinement claim about the outcome
ladder. -/
def outcomeSpec (player_total dealer_total : Nat) : Nat :=
  if 21 < player_total then 2
  else if 21 < dealer_total then 3
  else if dealer_total < player_total then 3
  else if player_total < dealer_total then 2
  else 1

/-- Value component of `deal_card` as a function of the rank alone; used to
state hand-total properties of the round engine. -/
def rankValue (rank : Nat) : Nat :=
  (deal_card rank 0).2.2

/-- Scripted card stream used for concrete round evaluations: the player is
dealt ranks 10 and 9, the dealer holds ranks 10 and 7, the first hit draws
rank 3; any further draw repeats rank 2. -/
def scriptedCards : Nat → Nat × Nat :=
  fun i => [(10, 0), (9, 1), (10, 2), (7, 3), (3, 0)].getD i (2, 0)

/-- Masking a natural number with `0xFF` is reduction modulo 256. -/
theorem and_255_eq_mod (x : Nat) : x &&& 255 = x % 256 := by
  have h := Nat.and_pow_two_sub_one_eq_mod x 8
  norm_num at h
  exact h

/-- Bitwise or of a byte into a value shifted left by eight is plain
positional addition. -/
theorem shiftLeft_eight_or_eq_add (a b : Nat) (hb : b < 256) :
    (a <<< 8) ||| b = a * 256 + b := by
  apply Nat.eq_of_testBit_eq
  intro j
  have hb' : b < 2 ^ 8 := by norm_num [hb]
  have h := Nat.testBit_mul_pow_two_add a hb' j
  have h2 : a * 256 + b = 2 ^ 8 * a + b := by ring
  rw [Nat.testBit_lor, Nat.testBit_shiftLeft, h2, h]
  by_cases hj : j < 8
  · have hx : ¬ (j ≥ 8) := by omega
    simp [hj, hx]
  · have hge : j ≥ 8 := by omega
    have hbf : b.testBit j = false :=
      Nat.testBit_lt_two_pow (lt_of_lt_of_le hb' (Nat.pow_le_pow_right (by norm_num) hge))
    simp [hj, hge, hbf]

/-- Reassembling the server's two-byte big-endian split of a 16-bit rank, the
way `safe_recv` does, returns the rank. -/
theorem rank_split_join (r : Nat) (hr : r < 65536) :
    (((r >>> 8) &&& 0xFF) <<< 8) ||| (r &&& 0xFF) = r := by
  rw [and_255_eq_mod, and_255_eq_mod, Nat.shiftRight_eq_div_pow]
  rw [shiftLeft_eight_or_eq_add _ _ (Nat.mod_lt _ (by norm_num))]
  norm_num
  omega

/-- Decoding an encoded Offer packet yields the original port and name. -/
theorem offer_round_trip (port : Nat) (name : List Nat)
    (hp : port < 65536) (hn : name.length = 32) :
    clientParseOffer (offerPacket port name) = some (port, name) := by
  have hpad : padTo 32 name = name := by
    rw [padTo, hn]
    simp [List.take_of_length_le (le_of_eq hn)]
  have hpk : offerPacket port name =
      171 :: 205 :: 220 :: 186 :: 2 :: (port / 256 % 256) :: (port % 256) :: name := by
    simp only [offerPacket, hpad, u16be, OFFER_TYPE]
    rfl
  rw [hpk]
  unfold clientParseOffer
  have h39 :
      ¬ ((171 :: 205 :: 220 :: 186 :: 2 :: (port / 256 % 256) :: (port % 256) :: name).length < 39) := by
    simp [hn]
  rw [if_neg h39]
  show (if be32 171 205 220 186 ≠ MAGIC_COOKIE ∨ (2 : Nat) ≠ 0x2 then none
    else some (be16 (port / 256 % 256) (port % 256),
      ((171 :: 205 :: 220 :: 186 :: 2 :: (port / 256 % 256) :: (port % 256) :: name).drop 7).take 32))
    = some (port, name)
  have hcook : be32 171 205 220 186 = MAGIC_COOKIE := rfl
  rw [if_neg (by simp [hcook])]
  have hport : be16 (port / 256 % 256) (port % 256) = port := by
    unfold be16
    omega
  simp [hport, List.take_of_length_le (le_of_eq hn)]

/-- Decoding an encoded Request packet yields the original round count and
team name. -/
theorem request_round_trip (rounds : Nat) (team : List Nat)
    (_hr : rounds < 256) (ht : team.length = 32) :
    handle_client_parse (requestPacket rounds team) = some (rounds, team) := by
  have hpad : padTo 32 team = team := by
    rw [padTo, ht]
    simp [List.take_of_length_le (le_of_eq ht)]
  have hpk : requestPacket rounds team =
      171 :: 205 :: 220 :: 186 :: 3 :: rounds :: team := by
    simp only [requestPacket, hpad]
    rfl
  rw [hpk]
  unfold handle_client_parse
  have h38 : ¬ ((171 :: 205 :: 220 :: 186 :: 3 :: rounds :: team).length < 38) := by
    simp [ht]
  rw [if_neg h38]
  show (if be32 171 205 220 186 ≠ MAGIC_COOKIE ∨ (3 : Nat) ≠ REQUEST_TYPE then none
    else some (rounds, ((171 :: 205 :: 220 :: 186 :: 3 :: rounds :: team).drop 6).take 32))
    = some (rounds, team)
  have hcook : be32 171 205 220 186 = MAGIC_COOKIE := rfl
  rw [if_neg (by simp [hcook, REQUEST_TYPE])]
  simp [List.take_of_length_le (le_of_eq ht)]

/-- Decoding an encoded Decision packet yields the original action field. -/
theorem decision_round_trip (action : List Nat) (ha : action.length = 5) :
    unpackDecision (decisionPacket action) = some action := by
  have hljust : ljustTo 5 action = action := by
    rw [ljustTo, ha]
    simp
  have hpad : padTo 5 action = action := by
    rw [padTo, ha]
    simp [List.take_of_length_le (le_of_eq ha)]
  have hpk : decisionPacket action = 171 :: 205 :: 220 :: 186 :: 4 :: action := by
    simp only [decisionPacket, hljust, hpad]
    rfl
  rw [hpk]
  unfold unpackDecision
  rw [if_pos (by simp [ha])]
  simp [List.take_of_length_le (le_of_eq ha)]

/-- Decoding an encoded Round-Payload packet yields the original result,
rank and suit. -/
theorem payload_round_trip (result rank suit : Nat)
    (_hres : result < 256) (hrank : rank < 65536) (_hsuit : suit < 256) :
    safe_recv (send_payload result rank suit) = (result, rank, suit) := by
  have hpk : send_payload result rank suit =
      171 :: 205 :: 220 :: 186 :: 4 :: result ::
        ((rank >>> 8) &&& 0xFF) :: (rank &&& 0xFF) :: suit :: [] := by
    simp only [send_payload, PAYLOAD_TYPE]
    rfl
  rw [hpk]
  unfold safe_recv
  rw [if_neg (by simp), if_neg (by simp)]
  show (if be32 171 205 220 186 ≠ MAGIC_COOKIE then ((0 : Nat), (0 : Nat), (0 : Nat))
    else (result, (((rank >>> 8) &&& 0xFF) <<< 8) ||| (rank &&& 0xFF), suit))
    = (result, rank, suit)
  have hcook : be32 171 205 220 186 = MAGIC_COOKIE := rfl
  rw [if_neg (by simp [hcook])]
  rw [rank_split_join rank hrank]

/-- Accumulator form of the client's point fold: folding from `acc` adds the
per-card `deal_card` values to `acc`. -/
theorem calculate_points_foldl (hand : List (Nat × Nat)) : ∀ acc : Nat,
    hand.foldl
      (fun total c => if c.1 = 1 then total + 11 else if c.1 ≥ 11 then total + 10 else total + c.1)
      acc
      = acc + (hand.map (fun c => (deal_card c.1 c.2).2.2)).sum := by
  induction hand with
  | nil => intro acc; simp
  | cons h t ih =>
    intro acc
    simp only [List.foldl_cons, List.map_cons, List.sum_cons, ih]
    simp only [deal_card]
    split_ifs <;> omega

/-- C1: the round outcome computed by `play_round` follows the first-match
rule player bust → 2, dealer bust → 3, player higher → 3, dealer higher → 2,
tie → 1 (the spec-modelled `outcomeSpec`); in particular totals 22 and 25
give outcome 2, and every completed round's result is exactly the outcome
ladder applied to the final totals. -/
theorem C1_outcome_first_match :
    (∀ player_total dealer_total : Nat,
        decideOutcome player_total dealer_total = outcomeSpec player_total dealer_total) ∧
    decideOutcome 22 25 = 2 ∧
    (∀ cards decisions fuel r, (play_round cards decisions fuel).result = some r →
        r = decideOutcome (play_round cards decisions fuel).player_sum
            (play_round cards decisions fuel).dealer_sum) := by
  refine ⟨?_, by decide, ?_⟩
  · intro p d
    rfl
  · intro cards decisions fuel r
    simp only [play_round]
    split <;> intro h <;> simp_all

/-- Witness for C1: a concrete completed round whose result is the outcome
ladder applied to the final totals 19 and 17. -/
theorem C1_outcome_first_match_witness :
    (play_round scriptedCards [] 9).result = some 3 ∧
    (3 : Nat) = decideOutcome (play_round scriptedCards [] 9).player_sum
        (play_round scriptedCards [] 9).dealer_sum :=
  ⟨by decide, C1_outcome_first_match.2.2 scriptedCards [] 9 3 (by decide)⟩

/-- C3: for every Offer, Request, Decision and Round-Payload message whose
fields are in their wire ranges, decoding the encoded byte buffer yields
exactly the original field values, and for every rank below 2^16 the
client's reconstruction of the server's two-byte big-endian split returns
the rank. -/
theorem C3_codec_round_trip :
    (∀ port name, port < 65536 → name.length = 32 →
        clientParseOffer (offerPacket port name) = some (port, name)) ∧
    (∀ rounds team, rounds < 256 → team.length = 32 →
        handle_client_parse (requestPacket rounds team) = some (rounds, team)) ∧
    (∀ action : List Nat, action.length = 5 →
        unpackDecision (decisionPacket action) = some action) ∧
    (∀ result rank suit, result < 256 → rank < 65536 → suit < 256 →
        safe_recv (send_payload result rank suit) = (result, rank, suit)) ∧
    (∀ rank : Nat, rank < 65536 →
        (((rank >>> 8) &&& 0xFF) <<< 8) ||| (rank &&& 0xFF) = rank) :=
  ⟨offer_round_trip, request_round_trip, decision_round_trip, payload_round_trip,
   rank_split_join⟩

/-- Witness for C3: the Round-Payload round trip at the concrete in-range
fields result 3, rank 300, suit 2. -/
theorem C3_codec_round_trip_witness :
    (300 : Nat) < 65536 ∧ safe_recv (send_payload 3 300 2) = (3, 300, 2) :=
  ⟨by decide, C3_codec_round_trip.2.2.2.1 3 300 2 (by decide) (by decide) (by decide)⟩

/-- C4: the derived card value is 11 for rank 1, 10 for ranks at least 11
and the rank itself otherwise, in both `deal_card` and `calculate_points`:
the client's hand total is exactly the sum of the server's per-card values
over the same cards. -/
theorem C4_card_value_mapping :
    (∀ rank suit : Nat, 1 ≤ rank → rank ≤ 13 →
        (deal_card rank suit).2.2 = if rank = 1 then 11 else if rank ≥ 11 then 10 else rank) ∧
    (∀ hand : List (Nat × Nat),
        calculate_points hand = (hand.map (fun c => (deal_card c.1 c.2).2.2)).sum) := by
  constructor
  · intro rank suit _ _
    rfl
  · intro hand
    simpa [calculate_points] using calculate_points_foldl hand 0

/-- Witness for C4: the value mapping at the concrete rank 13. -/
theorem C4_card_value_mapping_witness :
    (1 : Nat) ≤ 13 ∧
    (deal_card 13 2).2.2 = if 13 = 1 then 11 else if 13 ≥ 11 then 10 else 13 :=
  ⟨by decide, C4_card_value_mapping.1 13 2 (by decide) (by decide)⟩

/-- C9 counterexample: the encoded Decision message for the literal action
`"Hittt"` is 10 bytes long, not 9 as the claim states. -/
theorem C9_decision_length_counterexample :
    (decisionPacket hitttBytes).length ≠ 9 ∧ (decisionPacket hitttBytes).length = 10 := by
  decide

/-- C9 amended: every encoded Decision message is exactly 10 bytes long — a
4-byte magic cookie, a 1-byte type and a 5-byte action field holding the
literal byte strings of `"Hittt"` or `"Stand"` — and the server's
per-decision unpack accepts exactly a buffer of length 10. -/
theorem C9_decision_packet_layout :
    (∀ action : List Nat, action.length = 5 →
        (decisionPacket action).length = 10 ∧
        decisionPacket action = u32be MAGIC_COOKIE ++ 0x4 :: action) ∧
    (∀ data : List Nat, (unpackDecision data).isSome ↔ data.length = 10) ∧
    decisionPacket hitttBytes = u32be MAGIC_COOKIE ++ [4, 72, 105, 116, 116, 116] ∧
    decisionPacket standBytes = u32be MAGIC_COOKIE ++ [4, 83, 116, 97, 110, 100] := by
  refine ⟨?_, ?_, by decide, by decide⟩
  · intro action ha
    have hljust : ljustTo 5 action = action := by
      rw [ljustTo, ha]
      simp
    have hpad : padTo 5 action = action := by
      rw [padTo, ha]
      simp [List.take_of_length_le (le_of_eq ha)]
    constructor
    · simp [decisionPacket, hljust, hpad, u32be, ha]
    · simp [decisionPacket, hljust, hpad]
  · intro data
    unfold unpackDecision
    split <;> simp_all

/-- Witness for the amended C9 at the concrete action `"Stand"`. -/
theorem C9_decision_packet_layout_witness :
    standBytes.length = 5 ∧ (decisionPacket standBytes).length = 10 :=
  ⟨by decide, (C9_decision_packet_layout.1 standBytes (by decide)).1⟩

/-- C10: every `update_global_stats` call increments exactly one counter by
one (result 3 the losses, result 2 the wins, anything else — not only 1 —
the ties), so the subsequent `total_games` denominator grows by one and is
at least 1: the win-rate division cannot divide by zero. -/
theorem C10_stats_increment (s : Stats) (result : Nat) :
    total_games (update_global_stats s result) = total_games s + 1 ∧
    1 ≤ total_games (update_global_stats s result) ∧
    (result = 0x3 → update_global_stats s result = { s with total_losses := s.total_losses + 1 }) ∧
    (result = 0x2 → update_global_stats s result = { s with total_wins := s.total_wins + 1 }) ∧
    (result ≠ 0x3 → result ≠ 0x2 →
        update_global_stats s result = { s with total_ties := s.total_ties + 1 }) := by
  refine ⟨?_, ?_, ?_, ?_, ?_⟩ <;>
    simp only [update_global_stats, total_games] <;>
    split_ifs <;> simp_all <;> omega

/-- Witness for C10: the non-1, non-2, non-3 result 7 increments the tie
counter from the zero state. -/
theorem C10_stats_increment_witness :
    (7 : Nat) ≠ 0x3 ∧ (7 : Nat) ≠ 0x2 ∧ update_global_stats ⟨0, 0, 0⟩ 7 = ⟨0, 0, 1⟩ :=
  ⟨by decide, by decide, (C10_stats_increment ⟨0, 0, 0⟩ 7).2.2.2.2 (by decide) (by decide)⟩

/-- Unfolding of the player phase when no decision buffer remains. -/
theorem playerPhase_nil (cards : Nat → Nat × Nat) (psum idx : Nat) :
    playerPhase cards [] psum idx =
      if 21 < psum then ⟨true, psum, idx, [], 0⟩ else ⟨true, psum, idx, [], 1⟩ := by
  rw [playerPhase]

/-- Unfolding of the player phase on one received decision buffer. -/
theorem playerPhase_cons (cards : Nat → Nat × Nat) (data : List Nat)
    (rest : List (List Nat)) (psum idx : Nat) :
    playerPhase cards (data :: rest) psum idx =
      if 21 < psum then ⟨true, psum, idx, [], 0⟩
      else if data = [] then ⟨true, psum, idx, [], 1⟩
      else
        match unpackDecision data with
        | none => ⟨false, psum, idx, [], 1⟩
        | some decision_bytes =>
          if normalizeDecision decision_bytes = hitttBytes then
            let c := deal_card (cards idx).1 (cards idx).2
            let out := playerPhase cards rest (psum + c.2.2) (idx + 1)
            ⟨out.ok, out.player_sum, out.idx, ⟨0, c.1, c.2.1⟩ :: out.sent, out.reads + 1⟩
          else ⟨true, psum, idx, [], 1⟩ := by
  rw [playerPhase]

/-- Once the player total exceeds 21 the player loop performs no receive at
all: it exits immediately with no reads and no sends. -/
theorem playerPhase_bust (cards : Nat → Nat × Nat) (decisions : List (List Nat))
    (psum idx : Nat) (h : 21 < psum) :
    playerPhase cards decisions psum idx = ⟨true, psum, idx, [], 0⟩ := by
  cases decisions with
  | nil => rw [playerPhase_nil, if_pos h]
  | cons data rest => rw [playerPhase_cons, if_pos h]

/-- Every payload sent during the player phase carries outcome code 0. -/
theorem playerPhase_sent_zero (cards : Nat → Nat × Nat) :
    ∀ (decisions : List (List Nat)) (psum idx : Nat),
      ∀ p ∈ (playerPhase cards decisions psum idx).sent, p.outcome = 0 := by
  intro decisions
  induction decisions with
  | nil =>
    intro psum idx p hp
    rw [playerPhase_nil] at hp
    split at hp <;> simp_all
  | cons data rest ih =>
    intro psum idx p hp
    by_cases h21 : 21 < psum
    · rw [playerPhase_bust _ _ _ _ h21] at hp
      simp at hp
    · by_cases hdata : data = []
      · simp [playerPhase_cons, if_neg h21, hdata] at hp
      · rcases hud : unpackDecision data with _ | db
        · simp [playerPhase_cons, if_neg h21, if_neg hdata, hud] at hp
        · by_cases hdec : normalizeDecision db = hitttBytes
          · simp only [playerPhase_cons, if_neg h21, if_neg hdata, hud, if_pos hdec,
              List.mem_cons] at hp
            rcases hp with h1 | h2
            · rw [h1]
            · exact ih _ _ p h2
          · simp [playerPhase_cons, if_neg h21, if_neg hdata, hud, if_neg hdec] at hp
  
/-- When the player phase escapes with an exception, the player total at
that point is at most 21 (the malformed read happens inside the loop). -/
theorem playerPhase_error_le (cards : Nat → Nat × Nat) :
    ∀ (decisions : List (List Nat)) (psum idx : Nat),
      (playerPhase cards decisions psum idx).ok = false →
      (playerPhase cards decisions psum idx).player_sum ≤ 21 := by
  intro decisions
  induction decisions with
  | nil =>
    intro psum idx h
    rw [playerPhase_nil] at h ⊢
    split at h <;> simp_all
  | cons data rest ih =>
    intro psum idx h
    by_cases h21 : 21 < psum
    · rw [playerPhase_bust _ _ _ _ h21] at h
      simp at h
    · by_cases hdata : data = []
      · simp [playerPhase_cons, if_neg h21, hdata] at h
      · rcases hud : unpackDecision data with _ | db
        · simp [playerPhase_cons, if_neg h21, if_neg hdata, hud]
          omega
        · by_cases hdec : normalizeDecision db = hitttBytes
          · simp only [playerPhase_cons, if_neg h21, if_neg hdata, hud, if_pos hdec] at h ⊢
            exact ih _ _ h
          · simp [playerPhase_cons, if_neg h21, if_neg hdata, hud, if_neg hdec] at h


/-- Unfolding of the dealer loop at exhausted fuel. -/
theorem dealerPhase_zero (cards : Nat → Nat × Nat) (dsum idx : Nat) :
    dealerPhase cards 0 dsum idx = (dsum, idx, []) := rfl

/-- Unfolding of one step of the dealer loop. -/
theorem dealerPhase_succ (cards : Nat → Nat × Nat) (n dsum idx : Nat) :
    dealerPhase cards (n + 1) dsum idx =
      if dsum < 17 then
        let c := deal_card (cards idx).1 (cards idx).2
        let out := dealerPhase cards n (dsum + c.2.2) (idx + 1)
        (out.1, out.2.1, ⟨0, c.1, c.2.1⟩ :: out.2.2)
      else (dsum, idx, []) := by
  rw [dealerPhase]

/-- With a total of at least 17 the dealer loop draws nothing, whatever the
fuel. -/
theorem dealerPhase_stand (cards : Nat → Nat × Nat) (fuel dsum idx : Nat) (h : 17 ≤ dsum) :
    dealerPhase cards fuel dsum idx = (dsum, idx, []) := by
  cases fuel with
  | zero => rfl
  | succ n => rw [dealerPhase_succ, if_neg (by omega)]

/-- Every payload sent by the dealer loop carries outcome code 0. -/
theorem dealerPhase_sent_zero (cards : Nat → Nat × Nat) :
    ∀ (fuel dsum idx : Nat), ∀ p ∈ (dealerPhase cards fuel dsum idx).2.2, p.outcome = 0 := by
  intro fuel
  induction fuel with
  | zero => intro dsum idx p hp; simp [dealerPhase_zero] at hp
  | succ n ih =>
    intro dsum idx p hp
    rw [dealerPhase_succ] at hp
    by_cases h : dsum < 17
    · simp only [if_pos h, List.mem_cons] at hp
      rcases hp with h1 | h2
      · rw [h1]
      · exact ih _ _ p h2
    · simp [if_neg h] at hp

/-- The final dealer total is the initial total plus the values of all the
cards the dealer drew. -/
theorem dealerPhase_sum (cards : Nat → Nat × Nat) :
    ∀ (fuel dsum idx : Nat),
      (dealerPhase cards fuel dsum idx).1 =
        dsum + (((dealerPhase cards fuel dsum idx).2.2).map (fun p => rankValue p.rank)).sum := by
  intro fuel
  induction fuel with
  | zero => intro dsum idx; simp [dealerPhase_zero]
  | succ n ih =>
    intro dsum idx
    rw [dealerPhase_succ]
    by_cases h : dsum < 17
    · simp only [if_pos h, List.map_cons, List.sum_cons]
      rw [ih]
      have hv : rankValue (deal_card (cards idx).1 (cards idx).2).1
          = (deal_card (cards idx).1 (cards idx).2).2.2 := rfl
      simp [hv]
      omega
    · simp [if_neg h]

/-- Every card value derived from a rank of at least 1 is at least 2. -/
theorem two_le_rankValue (r : Nat) (h : 1 ≤ r) : 2 ≤ rankValue r := by
  show 2 ≤ (if r = 1 then 11 else if r ≥ 11 then 10 else r)
  split_ifs <;> omega

/-- Before every card the dealer draws, its running total is still strictly
below 17. -/
theorem dealerPhase_prefix_lt (cards : Nat → Nat × Nat) :
    ∀ (fuel dsum idx k : Nat), k < (dealerPhase cards fuel dsum idx).2.2.length →
      dsum + ((((dealerPhase cards fuel dsum idx).2.2).take k).map (fun p => rankValue p.rank)).sum
        < 17 := by
  intro fuel
  induction fuel with
  | zero => intro dsum idx k hk; simp [dealerPhase_zero] at hk
  | succ n ih =>
    intro dsum idx k hk
    rw [dealerPhase_succ] at hk ⊢
    by_cases h : dsum < 17
    · simp only [if_pos h] at hk ⊢
      cases k with
      | zero =>
        simp only [List.take_zero, List.map_nil, List.sum_nil]
        omega
      | succ k =>
        simp only [List.length_cons] at hk
        simp only [List.take_succ_cons, List.map_cons, List.sum_cons]
        have := ih (dsum + (deal_card (cards idx).1 (cards idx).2).2.2) (idx + 1) k (by omega)
        have hv : rankValue (deal_card (cards idx).1 (cards idx).2).1
            = (deal_card (cards idx).1 (cards idx).2).2.2 := rfl
        rw [hv]
        omega
    · simp [if_neg h] at hk

/-- Given enough fuel and ranks of at least 1 (as `random.randint(1, 13)`
guarantees), the dealer loop ends with a total of at least 17. -/
theorem dealerPhase_final_ge (cards : Nat → Nat × Nat) (hranks : ∀ i, 1 ≤ (cards i).1) :
    ∀ (fuel dsum idx : Nat), 17 ≤ dsum + 2 * fuel →
      17 ≤ (dealerPhase cards fuel dsum idx).1 := by
  intro fuel
  induction fuel with
  | zero => intro dsum idx hf; simpa [dealerPhase_zero] using hf
  | succ n ih =>
    intro dsum idx hf
    rw [dealerPhase_succ]
    by_cases h : dsum < 17
    · simp only [if_pos h]
      have hv : 2 ≤ (deal_card (cards idx).1 (cards idx).2).2.2 :=
        two_le_rankValue _ (hranks idx)
      exact ih (dsum + (deal_card (cards idx).1 (cards idx).2).2.2) (idx + 1) (by omega)
    · simp only [if_neg h]
      omega

/-- The outcome ladder only produces the codes 1, 2 and 3. -/
theorem decideOutcome_bounds (p d : Nat) : 1 ≤ decideOutcome p d ∧ decideOutcome p d ≤ 3 := by
  unfold decideOutcome
  split_ifs <;> omega


/-- C5: the dealer drawing phase runs only when the player total is at most
21, never draws when the total is already at least 17, draws only while the
running total is strictly below 17, and (with enough fuel and valid ranks)
stops at the first total of at least 17, which is the initial total plus
the drawn values. -/
theorem C5_dealer_strategy :
    (∀ cards decisions fuel, 21 < (play_round cards decisions fuel).player_sum →
        (play_round cards decisions fuel).dealerSent = []) ∧
    (∀ cards fuel dsum idx, 17 ≤ dsum → dealerPhase cards fuel dsum idx = (dsum, idx, [])) ∧
    (∀ cards fuel dsum idx k, k < (dealerPhase cards fuel dsum idx).2.2.length →
        dsum + ((((dealerPhase cards fuel dsum idx).2.2).take k).map
          (fun p => rankValue p.rank)).sum < 17) ∧
    (∀ cards fuel dsum idx, (∀ i, 1 ≤ (cards i).1) → 17 ≤ dsum + 2 * fuel →
        17 ≤ (dealerPhase cards fuel dsum idx).1) ∧
    (∀ cards fuel dsum idx,
        (dealerPhase cards fuel dsum idx).1 =
          dsum + (((dealerPhase cards fuel dsum idx).2.2).map (fun p => rankValue p.rank)).sum) := by
  refine ⟨?_, ?_, ?_, ?_, ?_⟩
  · intro cards decisions fuel hgt
    revert hgt
    simp only [play_round]
    split
    · intro _
      rfl
    · intro hgt
      simp only at hgt ⊢
      rw [if_neg (by omega)]
  · intro cards fuel dsum idx h
    exact dealerPhase_stand cards fuel dsum idx h
  · intro cards fuel dsum idx k hk
    exact dealerPhase_prefix_lt cards fuel dsum idx k hk
  · intro cards fuel dsum idx hranks hf
    exact dealerPhase_final_ge cards hranks fuel dsum idx hf
  · intro cards fuel dsum idx
    exact dealerPhase_sum cards fuel dsum idx


/-- C6: when a hit pushes the player total over 21 the player loop exits
immediately with no further Decision reads, the dealer drawing loop is
skipped, and the round ends with outcome 2; the scripted bust round (19
plus a drawn 3) reads exactly one of its two queued decisions and returns
outcome 2. -/
theorem C6_bust_ends_round :
    (∀ cards decisions psum idx, 21 < psum →
        playerPhase cards decisions psum idx = ⟨true, psum, idx, [], 0⟩) ∧
    (∀ cards decisions fuel, 21 < (play_round cards decisions fuel).player_sum →
        (play_round cards decisions fuel).dealerSent = [] ∧
        (play_round cards decisions fuel).result = some 2) ∧
    (play_round scriptedCards [decisionPacket hitttBytes, decisionPacket hitttBytes] 9).reads = 1 ∧
    (play_round scriptedCards [decisionPacket hitttBytes, decisionPacket hitttBytes] 9).player_sum
      = 22 ∧
    (play_round scriptedCards [decisionPacket hitttBytes, decisionPacket hitttBytes] 9).result
      = some 2 := by
  refine ⟨?_, ?_, by decide, by decide, by decide⟩
  · intro cards decisions psum idx h
    exact playerPhase_bust cards decisions psum idx h
  · intro cards decisions fuel
    have herr := playerPhase_error_le cards decisions
      ((deal_card (cards 0).1 (cards 0).2).2.2 + (deal_card (cards 1).1 (cards 1).2).2.2) 4
    revert herr
    simp only [play_round]
    split
    · intro herr hgt
      simp only at hgt
      rename_i hok
      have := herr hok
      omega
    · intro _ hgt
      simp only at hgt ⊢
      rw [if_neg (by omega)]
      constructor
      · rfl
      · have : decideOutcome (playerPhase cards decisions
            ((deal_card (cards 0).1 (cards 0).2).2.2 + (deal_card (cards 1).1 (cards 1).2).2.2)
            4).player_sum
            ((deal_card (cards 2).1 (cards 2).2).2.2 + (deal_card (cards 3).1 (cards 3).2).2.2)
            = 2 := by
          unfold decideOutcome
          rw [if_pos (by omega)]
        simp [this]

/-- C7: every completed round's message trace is a prefix of payloads that
all carry outcome code 0 followed by exactly one final payload whose
outcome code is 1, 2 or 3 with rank and suit fields 0. -/
theorem C7_final_outcome_message (cards : Nat → Nat × Nat) (decisions : List (List Nat))
    (fuel r : Nat) (hr : (play_round cards decisions fuel).result = some r) :
    1 ≤ r ∧ r ≤ 3 ∧
    ∃ mid, (play_round cards decisions fuel).sent = mid ++ [⟨r, 0, 0⟩] ∧
      ∀ p ∈ mid, p.outcome = 0 := by
  revert hr
  simp only [play_round]
  split
  · intro h
    simp at h
  · intro h
    simp only [Option.some.injEq] at h
    subst h
    refine ⟨(decideOutcome_bounds _ _).1, (decideOutcome_bounds _ _).2, _, rfl, ?_⟩
    intro p hp
    simp only [List.mem_append] at hp
    rcases hp with ((hp | hp) | hp) | hp
    · simp only [List.mem_cons, List.not_mem_nil, or_false] at hp
      rcases hp with h1 | h1 | h1 <;> rw [h1]
    · exact playerPhase_sent_zero cards decisions _ 4 p hp
    · simp only [List.mem_cons, List.not_mem_nil, or_false] at hp
      rw [hp]
    · revert hp
      split
      · intro hp
        exact dealerPhase_sent_zero cards fuel _ _ p hp
      · intro hp
        simp at hp


/-- C8 counterexample: after a Decision read yields no data, the round is
not aborted — this concrete round still computes outcome 3 and sends two
further messages beyond the three dealt before the read. -/
theorem C8_io_failure_counterexample :
    (play_round scriptedCards [[]] 9).result = some 3 ∧
    3 < (play_round scriptedCards [[]] 9).sent.length := by
  decide

/-- C8 amended: a truncated (non-empty, wrong-length) Decision read raises
and aborts the round — no outcome is computed, the dealer loop does not
run, and every message already sent carries outcome 0, so no outcome is
ever recorded; but a Decision read that yields no data merely exits the
player loop and the round continues as if the player stood. -/
theorem C8_io_failure_behavior :
    (∀ cards decisions fuel, (play_round cards decisions fuel).result = none →
        ∀ p ∈ (play_round cards decisions fuel).sent, p.outcome = 0) ∧
    (∀ cards decisions fuel, (play_round cards decisions fuel).result = none →
        (play_round cards decisions fuel).dealerSent = []) ∧
    (∀ cards (decisions : List (List Nat)) psum idx (data : List Nat),
        psum ≤ 21 → data ≠ [] → data.length ≠ 10 →
        playerPhase cards (data :: decisions) psum idx = ⟨false, psum, idx, [], 1⟩) ∧
    (∀ cards (decisions : List (List Nat)) psum idx, psum ≤ 21 →
        playerPhase cards ([] :: decisions) psum idx = ⟨true, psum, idx, [], 1⟩) := by
  refine ⟨?_, ?_, ?_, ?_⟩
  · intro cards decisions fuel hre
    revert hre
    simp only [play_round]
    split
    · intro _ p hp
      simp only [List.mem_append] at hp
      rcases hp with hp | hp
      · simp only [List.mem_cons, List.not_mem_nil, or_false] at hp
        rcases hp with h1 | h1 | h1 <;> rw [h1]
      · exact playerPhase_sent_zero cards decisions _ 4 p hp
    · intro h
      simp at h
  · intro cards decisions fuel hre
    revert hre
    simp only [play_round]
    split
    · intro _
      rfl
    · intro h
      simp at h
  · intro cards decisions psum idx data h21 hne hlen
    rw [playerPhase_cons, if_neg (by omega), if_neg hne]
    have : unpackDecision data = none := by
      unfold unpackDecision
      rw [if_neg hlen]
    rw [this]
  · intro cards decisions psum idx h21
    rw [playerPhase_cons, if_neg (by omega), if_pos rfl]

theorem C8_io_failure_behavior_witness :
    (19 : Nat) ≤ 21 ∧ ([1, 2, 3] : List Nat) ≠ [] ∧
    playerPhase scriptedCards [[1, 2, 3]] 19 4 = ⟨false, 19, 4, [], 1⟩ :=
  ⟨by decide, by decide,
   C8_io_failure_behavior.2.2.1 scriptedCards [] 19 4 [1, 2, 3] (by decide) (by decide) (by decide)⟩

/-- C2 counterexample: a Decision buffer whose four cookie bytes are all 0
(not the magic constant) is still acted upon by the server's player loop —
the `"Hittt"` action field is honoured, a card is drawn and sent. -/
theorem C2_cookie_counterexample :
    (0 :: 0 :: 0 :: 0 :: 4 :: hitttBytes).take 4 ≠ u32be MAGIC_COOKIE ∧
    playerPhase scriptedCards [0 :: 0 :: 0 :: 0 :: 4 :: hitttBytes] 19 4 =
      ⟨true, 22, 5, [⟨0, 3, 0⟩], 1⟩ := by
  decide

/-- C2 amended: the magic cookie is validated, and the message discarded on
mismatch, for Request (server), Offer (client) and Round-Payload (client)
messages; but the server never checks the cookie of Decision messages —
their handling depends only on the 5-byte action field. -/
theorem C2_cookie_validation :
    (∀ data : List Nat,
        be32 (byteAt data 0) (byteAt data 1) (byteAt data 2) (byteAt data 3) ≠ MAGIC_COOKIE →
        handle_client_parse data = none) ∧
    (∀ data : List Nat,
        be32 (byteAt data 0) (byteAt data 1) (byteAt data 2) (byteAt data 3) ≠ MAGIC_COOKIE →
        clientParseOffer data = none) ∧
    (∀ data : List Nat,
        be32 (byteAt data 0) (byteAt data 1) (byteAt data 2) (byteAt data 3) ≠ MAGIC_COOKIE →
        safe_recv data = (0, 0, 0)) ∧
    (∀ data data' : List Nat, data.length = 10 → data'.length = 10 →
        data.drop 5 = data'.drop 5 →
        ∀ cards (decisions : List (List Nat)) psum idx,
          playerPhase cards (data :: decisions) psum idx =
          playerPhase cards (data' :: decisions) psum idx) := by
  refine ⟨?_, ?_, ?_, ?_⟩
  · intro data hc
    unfold handle_client_parse
    split
    · rfl
    · rw [if_pos (Or.inl hc)]
  · intro data hc
    unfold clientParseOffer
    split
    · rfl
    · rw [if_pos (Or.inl hc)]
  · intro data hc
    unfold safe_recv
    split
    · rfl
    · split
      · rfl
      · rw [if_pos hc]
  · intro data data' hlen hlen' hdrop cards decisions psum idx
    have hne : data ≠ [] := by
      intro h
      rw [h] at hlen
      simp at hlen
    have hne' : data' ≠ [] := by
      intro h
      rw [h] at hlen'
      simp at hlen'
    have hu : unpackDecision data = some ((data.drop 5).take 5) := by
      unfold unpackDecision
      rw [if_pos hlen]
    have hu' : unpackDecision data' = some ((data'.drop 5).take 5) := by
      unfold unpackDecision
      rw [if_pos hlen']
    rw [playerPhase_cons, playerPhase_cons, if_neg hne, if_neg hne', hu, hu', hdrop]

theorem C2_cookie_validation_witness :
    be32 (byteAt [1, 2, 3, 4, 5, 6, 7, 8, 9] 0) (byteAt [1, 2, 3, 4, 5, 6, 7, 8, 9] 1)
        (byteAt [1, 2, 3, 4, 5, 6, 7, 8, 9] 2) (byteAt [1, 2, 3, 4, 5, 6, 7, 8, 9] 3)
      ≠ MAGIC_COOKIE ∧
    safe_recv [1, 2, 3, 4, 5, 6, 7, 8, 9] = (0, 0, 0) :=
  ⟨by decide, C2_cookie_validation.2.2.1 [1, 2, 3, 4, 5, 6, 7, 8, 9] (by decide)⟩

/-- Witness for C5 at concrete inputs: with a dealer total of 18 the dealer
draws no card. -/
theorem C5_dealer_strategy_witness :
    (17 : Nat) ≤ 18 ∧ dealerPhase scriptedCards 9 18 4 = (18, 4, []) :=
  ⟨by decide, C5_dealer_strategy.2.1 scriptedCards 9 18 4 (by decide)⟩

/-- Witness for C6: the scripted bust round has a player total of 22, an
empty dealer drawing trace and outcome 2. -/
theorem C6_bust_ends_round_witness :
    21 < (play_round scriptedCards [decisionPacket hitttBytes, decisionPacket hitttBytes]
        9).player_sum ∧
    (play_round scriptedCards [decisionPacket hitttBytes, decisionPacket hitttBytes]
        9).dealerSent = [] ∧
    (play_round scriptedCards [decisionPacket hitttBytes, decisionPacket hitttBytes]
        9).result = some 2 :=
  ⟨by decide,
   C6_bust_ends_round.2.1 scriptedCards
     [decisionPacket hitttBytes, decisionPacket hitttBytes] 9 (by decide)⟩

/-- Witness for C7: the scripted stand round completes with result 3 and a
trace of zero-outcome payloads followed by the single final outcome 3. -/
theorem C7_final_outcome_message_witness :
    (play_round scriptedCards [] 9).result = some 3 ∧
    (1 ≤ 3 ∧ 3 ≤ 3 ∧
      ∃ mid, (play_round scriptedCards [] 9).sent = mid ++ [⟨3, 0, 0⟩] ∧
        ∀ p ∈ mid, p.outcome = 0) :=
  ⟨by decide, C7_final_outcome_message scriptedCards [] 9 3 (by decide)⟩

end Blackijecky
